import Mathlib

/-!
Shallow embedding of the near-real-time audio-to-caption pipeline of the
TV-App repository.

The embedded code is the class `OptimizedWhisperService` found in
`src/backend/src/services/ContentRecognitionService.js` (the streaming
subtitle pipeline: `initSession`, `processAudioChunk`, `processQueue`,
`processBatch`, `parseVttContent`, `timestampToSeconds`,
`adjustSubtitleTimestamps`, `getSubtitles`, `getSubtitlesInRange`,
`endSession`), together with the session-store function `addSubtitle`
of `src/unnamed/part_004`.

Modelling conventions:
- JS numbers (timestamps, seconds) are rationals (`ℚ`); millisecond clock
  values (`Date.now()`) are passed in explicitly as a `now` parameter.
- The temp directory on disk is modelled as the list `tempFiles` of file
  names currently existing; `fs.unlinkSync` removes a name from the list.
- `session.subtitles.sort((a, b) => a.start - b.start)` is a stable sort
  by `start`; it is modelled with `List.insertionSort`, which is stable.
- The asynchronous batch jobs created by `processQueue` (the pending
  `processBatch` promises) are modelled by the field `inFlight`: the list
  of chunk batches that have been handed to a worker and whose completion
  (`completeBatch`) has not yet run.  `dispatchCount` counts how many
  batches have ever been dispatched (how many times `processBatch` was
  invoked).  Both fields are ghost state: no embedded operation reads them.
- The `while` loop of `processQueue` is embedded with explicit fuel;
  `processingQueue.length + maxWorkers` iterations always suffice, since
  every iteration either removes at least one chunk from the queue or is
  the last one allowed by `activeWorkers < maxWorkers`.
- Errors thrown by the JS code become `Except.error`; since the embedding
  is state passing, an error leaves the service state unchanged by
  construction.
-/

namespace MemoryStream

/-- Caption segment as produced by `parseVttContent`: `{ start, end, text }`,
with times in seconds.  The JS field `end` is a Lean keyword and is written
`stop` here. -/
structure Subtitle where
  start : ℚ
  stop : ℚ
  text : String
deriving DecidableEq

instance : Inhabited Subtitle := ⟨⟨0, 0, ""⟩⟩

/-- Status of a chunk record: `'queued' | 'processing' | 'processed' | 'failed'`. -/
inductive ChunkStatus where
  | queued
  | processing
  | processed
  | failed
deriving DecidableEq

/-- Chunk record pushed by `processAudioChunk`:
`{ filename, timestamp, index, status }`. -/
structure Chunk where
  filename : String
  timestamp : ℚ
  index : ℕ
  status : ChunkStatus
deriving DecidableEq

/-- Session options, after defaulting in `initSession`. -/
structure SessionOptions where
  language : String
  prompt : String
  chunkDuration : ℚ
  model : String
  batchSize : ℕ
  maxWorkers : ℕ
deriving DecidableEq

/-- Session record created by `initSession`.  `inFlight` and
`dispatchCount` are ghost fields for the pending `processBatch` jobs, see
the module comment. -/
structure Session where
  id : String
  options : SessionOptions
  chunks : List Chunk
  subtitles : List Subtitle
  startTime : ℚ
  lastActivityTime : ℚ
  processingQueue : List Chunk
  activeWorkers : ℕ
  lastProcessedTime : ℚ
  chunkIndex : ℕ
  isStreaming : Bool
  inFlight : List (List Chunk)
  dispatchCount : ℕ
deriving DecidableEq

/-- Placeholder session used only for `Inhabited`. -/
def defaultSession : Session where
  id := ""
  options :=
    { language := ""
      prompt := ""
      chunkDuration := 0
      model := ""
      batchSize := 0
      maxWorkers := 0 }
  chunks := []
  subtitles := []
  startTime := 0
  lastActivityTime := 0
  processingQueue := []
  activeWorkers := 0
  lastProcessedTime := 0
  chunkIndex := 0
  isStreaming := true
  inFlight := []
  dispatchCount := 0

instance : Inhabited Session := ⟨defaultSession⟩

/-- State of the whole service: the `activeSessions` map (an association
list with unique keys, modelling the JS `Map`) and the set of files
currently existing in the temp directory. -/
structure ServiceState where
  activeSessions : List (String × Session)
  tempFiles : List String
deriving DecidableEq

/-- Service state at construction time: no sessions, empty temp directory. -/
def emptyState : ServiceState := { activeSessions := [], tempFiles := [] }

instance : Inhabited ServiceState := ⟨emptyState⟩

/-- Lookup in the `activeSessions` map (`this.activeSessions.get(id)`). -/
def getSession (st : ServiceState) (sessionId : String) : Option Session :=
  match st.activeSessions.find? (fun p => p.1 = sessionId) with
  | some p => some p.2
  | none => none

/-- Update-or-insert into the `activeSessions` map (`Map.prototype.set`). -/
def mapSet : List (String × Session) → String → Session → List (String × Session)
  | [], k, v => [(k, v)]
  | (k', v') :: rest, k, v =>
      if k' = k then (k, v) :: rest else (k', v') :: mapSet rest k v

/-- Removal from the `activeSessions` map (`Map.prototype.delete`); keys are
unique, so filtering out every binding of the key is the Map semantics. -/
def mapDelete (m : List (String × Session)) (k : String) : List (String × Session) :=
  m.filter (fun p => p.1 ≠ k)

/-- JS `||`-defaulting for an optional string option (empty string is falsy). -/
def orFalsyStr (v : Option String) (d : String) : String :=
  match v with
  | none => d
  | some s => if s = "" then d else s

/-- JS `||`-defaulting for an optional numeric count option (0 is falsy). -/
def orFalsyNat (v : Option ℕ) (d : ℕ) : ℕ :=
  match v with
  | none => d
  | some 0 => d
  | some n => n

/-- JS `||`-defaulting for an optional numeric option (0 is falsy). -/
def orFalsyRat (v : Option ℚ) (d : ℚ) : ℚ :=
  match v with
  | none => d
  | some q => if q = 0 then d else q

/-- Options object accepted by `initSession`. -/
structure InitOptions where
  language : Option String := none
  prompt : Option String := none
  chunkDuration : Option ℚ := none
  model : Option String := none
  batchSize : Option ℕ := none
  maxWorkers : Option ℕ := none

/-- Embedding of `initSession(sessionId, options)`.  `freshId` stands for
the `crypto.randomUUID()` value used when no session id is supplied, and
`now` for `Date.now()`.  Returns the new session id and the new state. -/
def initSession (st : ServiceState) (sessionId : Option String) (freshId : String)
    (options : InitOptions) (now : ℚ) : String × ServiceState :=
  let id := orFalsyStr sessionId freshId
  let session : Session :=
    { id := id
      options :=
        { language := orFalsyStr options.language "en"
          prompt := orFalsyStr options.prompt ""
          chunkDuration := orFalsyRat options.chunkDuration 10
          model := orFalsyStr options.model "whisper-1"
          batchSize := orFalsyNat options.batchSize 3
          maxWorkers := orFalsyNat options.maxWorkers 2 }
      chunks := []
      subtitles := []
      startTime := now
      lastActivityTime := now
      processingQueue := []
      activeWorkers := 0
      lastProcessedTime := 0
      chunkIndex := 0
      isStreaming := true
      inFlight := []
      dispatchCount := 0 }
  (id, { st with activeSessions := mapSet st.activeSessions id session })

/-- Name of the waveform file written for one chunk:
`chunk_${sessionId}_${session.chunkIndex}_${Date.now()}.wav`. -/
def chunkFilename (sessionId : String) (chunkIndex : ℕ) (now : ℚ) : String :=
  "chunk_" ++ sessionId ++ "_" ++ toString chunkIndex ++ "_" ++ toString now ++ ".wav"

/-- Name of the merged batch file: `merged_${sessionId}_${Date.now()}.wav`. -/
def mergedFilename (sessionId : String) (now : ℚ) : String :=
  "merged_" ++ sessionId ++ "_" ++ toString now ++ ".wav"

/-- Status mutation shared between the queue, the batch and the
`session.chunks` registry: in JS the three hold the same chunk objects, so
setting `chunk.status` is visible everywhere.  Here the chunks with the
given indices are updated wherever the list is stored. -/
def setStatuses (indices : List ℕ) (status : ChunkStatus) (chunks : List Chunk) : List Chunk :=
  chunks.map (fun c => if indices.contains c.index then { c with status := status } else c)

/-- One result row of `processAudioChunk`. -/
structure SubmitResult where
  status : String
  queueLength : ℕ
  totalChunks : ℕ
deriving DecidableEq

instance : Inhabited SubmitResult := ⟨⟨"", 0, 0⟩⟩

/-- Body of the `while` loop of `processQueue`, with explicit fuel: as long
as the queue is non-empty and a worker slot is free, splice up to
`batchSize` chunks off the front of the queue, mark them `processing`,
increment `activeWorkers` and hand the batch to `processBatch`
(modelled by appending it to the ghost `inFlight` list). -/
def processQueueLoop : ℕ → Session → Session
  | 0, s => s
  | fuel + 1, s =>
      if 0 < s.processingQueue.length ∧ s.activeWorkers < s.options.maxWorkers then
        let n := min s.options.batchSize s.processingQueue.length
        let chunkBatch :=
          (s.processingQueue.take n).map (fun c => { c with status := ChunkStatus.processing })
        processQueueLoop fuel
          { s with
            processingQueue := s.processingQueue.drop n
            chunks := setStatuses (chunkBatch.map Chunk.index) ChunkStatus.processing s.chunks
            activeWorkers := s.activeWorkers + 1
            inFlight := s.inFlight ++ [chunkBatch]
            dispatchCount := s.dispatchCount + 1 }
      else s

/-- Embedding of `processQueue(sessionId)` restricted to one session value:
the early `activeWorkers >= maxWorkers` return, then the loop.
`processingQueue.length + maxWorkers` iterations of fuel always suffice. -/
def processQueueSession (s : Session) : Session :=
  if s.options.maxWorkers ≤ s.activeWorkers then s
  else processQueueLoop (s.processingQueue.length + s.options.maxWorkers) s

/-- Embedding of `processQueue(sessionId)`. -/
def processQueue (st : ServiceState) (sessionId : String) : ServiceState :=
  match getSession st sessionId with
  | none => st
  | some s =>
      { st with activeSessions := mapSet st.activeSessions sessionId (processQueueSession s) }

/-- Embedding of `processAudioChunk(sessionId, audioChunk, timestamp)`.
`now` is `Date.now()`.  The audio bytes themselves are irrelevant to every
claim and are not modelled; `convertAudioToWav` writing the waveform file
is modelled by appending `filename` to `tempFiles`.  A missing session
throws `Session ${sessionId} not found`. -/
def processAudioChunk (st : ServiceState) (sessionId : String) (timestamp : ℚ)
    (now : ℚ) : Except String (SubmitResult × ServiceState) :=
  match getSession st sessionId with
  | none => Except.error ("Session " ++ sessionId ++ " not found")
  | some session =>
      let session := { session with lastActivityTime := now }
      let filename := chunkFilename sessionId session.chunkIndex now
      let session := { session with chunkIndex := session.chunkIndex + 1 }
      let chunk : Chunk :=
        { filename := filename, timestamp := timestamp,
          index := session.chunkIndex - 1, status := ChunkStatus.queued }
      let session :=
        { session with
          chunks := session.chunks ++ [chunk]
          processingQueue := session.processingQueue ++ [chunk] }
      let session :=
        if session.options.batchSize ≤ session.processingQueue.length ∨
            session.options.chunkDuration * 2 < timestamp - session.lastProcessedTime then
          processQueueSession session
        else session
      Except.ok
        ({ status := "queued"
           queueLength := session.processingQueue.length
           totalChunks := session.chunks.length },
         { st with
           activeSessions := mapSet st.activeSessions sessionId session
           tempFiles := st.tempFiles ++ [filename] })

/-- Embedding of `adjustSubtitleTimestamps(subtitles, baseTimestamp)`. -/
def adjustSubtitleTimestamps (subtitles : List Subtitle) (baseTimestamp : ℚ) : List Subtitle :=
  subtitles.map (fun subtitle =>
    { subtitle with start := subtitle.start + baseTimestamp, stop := subtitle.stop + baseTimestamp })

/-- Embedding of `Math.max(...chunkBatch.map(c => c.timestamp))` as used to set
`lastProcessedTime`; the batches it is applied to are never empty, the
value on `[]` is arbitrary. -/
def maxTimestamp : List Chunk → ℚ
  | [] => 0
  | c :: rest => (rest.map Chunk.timestamp).foldl max c.timestamp

/-- Tail of `processQueue`: the `.finally()` attached to the `processBatch`
promise.  Decrements `activeWorkers`, records the largest timestamp of the
completed batch, and keeps draining the queue when chunks remain. -/
def batchFinally (st : ServiceState) (sessionId : String) (chunkBatch : List Chunk) :
    ServiceState :=
  match getSession st sessionId with
  | none => st
  | some session =>
      let session :=
        { session with
          activeWorkers := session.activeWorkers - 1
          lastProcessedTime := maxTimestamp chunkBatch }
      let st := { st with activeSessions := mapSet st.activeSessions sessionId session }
      if 0 < session.processingQueue.length then processQueue st sessionId else st

/-- The in-place `chunkBatch.sort((a, b) => a.timestamp - b.timestamp)`
at the start of `processBatch` (stable sort by timestamp). -/
def sortBatch (chunkBatch : List Chunk) : List Chunk :=
  List.insertionSort (fun a b : Chunk => a.timestamp ≤ b.timestamp) chunkBatch

/-- Completion of the `k`-th pending `processBatch` job, together with its
`.finally()`.  `result` is the outcome of the Whisper transcription of the
merged file: `Except.ok` carries the parsed subtitle list (the value of
`parseVttContent` on the returned VTT document, before timestamp
adjustment), `Except.error` any transcription failure.  On success the
subtitles are appended and re-sorted, the chunks are marked `processed`
and the chunk waveforms and the merged file are unlinked; on failure the
chunks are marked `failed` and nothing is unlinked. -/
def completeBatch (st : ServiceState) (sessionId : String) (k : ℕ)
    (result : Except Unit (List Subtitle)) (now : ℚ) : ServiceState :=
  match getSession st sessionId with
  | none => st
  | some session =>
      match session.inFlight[k]? with
      | none => st
      | some rawBatch =>
          let chunkBatch := sortBatch rawBatch
          let merged := mergedFilename sessionId now
          let st := { st with tempFiles := st.tempFiles ++ [merged] }
          let session := { session with inFlight := session.inFlight.eraseIdx k }
          match result with
          | Except.ok rawSubtitles =>
              let baseTimestamp :=
                match chunkBatch with
                | [] => 0
                | c :: _ => c.timestamp
              let adjustedSubtitles := adjustSubtitleTimestamps rawSubtitles baseTimestamp
              let session :=
                { session with
                  subtitles :=
                    List.insertionSort (fun a b : Subtitle => a.start ≤ b.start)
                      (session.subtitles ++ adjustedSubtitles)
                  chunks :=
                    setStatuses (chunkBatch.map Chunk.index) ChunkStatus.processed session.chunks }
              let st :=
                { st with
                  activeSessions := mapSet st.activeSessions sessionId session
                  tempFiles :=
                    (st.tempFiles.filter
                        (fun f => !(chunkBatch.map Chunk.filename).contains f)).filter
                      (fun f => f ≠ merged) }
              batchFinally st sessionId chunkBatch
          | Except.error _ =>
              let session :=
                { session with
                  chunks :=
                    setStatuses (chunkBatch.map Chunk.index) ChunkStatus.failed session.chunks }
              let st := { st with activeSessions := mapSet st.activeSessions sessionId session }
              batchFinally st sessionId chunkBatch

/-- Embedding of `getSubtitles(sessionId)`: a copy of the session's
subtitles sorted by start time; `[]` when the session does not exist. -/
def getSubtitles (st : ServiceState) (sessionId : String) : List Subtitle :=
  match getSession st sessionId with
  | none => []
  | some session =>
      List.insertionSort (fun a b : Subtitle => a.start ≤ b.start) session.subtitles

/-- Embedding of `getSubtitlesInRange(sessionId, startTime, endTime)`. -/
def getSubtitlesInRange (st : ServiceState) (sessionId : String)
    (startTime endTime : ℚ) : List Subtitle :=
  (getSubtitles st sessionId).filter (fun subtitle =>
    decide ((startTime ≤ subtitle.start ∧ subtitle.start ≤ endTime) ∨
      (startTime ≤ subtitle.stop ∧ subtitle.stop ≤ endTime) ∨
      (subtitle.start ≤ startTime ∧ endTime ≤ subtitle.stop)))

/-- Result of `endSession`. -/
structure EndResult where
  sessionId : String
  subtitles : List Subtitle
  duration : ℚ
deriving DecidableEq

instance : Inhabited EndResult := ⟨⟨"", [], 0⟩⟩

/-- Embedding of `endSession(sessionId)`: reads the final subtitles,
removes the session from the map, unlinks every chunk waveform recorded in
`session.chunks`, and returns the subtitles with the session duration in
seconds.  A missing session throws `Session ${sessionId} not found`. -/
def endSession (st : ServiceState) (sessionId : String) (now : ℚ) :
    Except String (EndResult × ServiceState) :=
  match getSession st sessionId with
  | none => Except.error ("Session " ++ sessionId ++ " not found")
  | some session =>
      let subtitles := getSubtitles st sessionId
      Except.ok
        ({ sessionId := sessionId
           subtitles := subtitles
           duration := (now - session.startTime) / 1000 },
         { st with
           activeSessions := mapDelete st.activeSessions sessionId
           tempFiles :=
             st.tempFiles.filter (fun f => !(session.chunks.map Chunk.filename).contains f) })

/-! ### Caption document parser

Embedding of `parseVttContent` / `timestampToSeconds`.  The regex
`/(\d{2}:\d{2}:\d{2}\.\d{3}) --> (\d{2}:\d{2}:\d{2}\.\d{3})/` is
unanchored, so `line.match` finds its leftmost occurrence; `\d` is exactly
the digits 0-9 (`Char.isDigit`). -/

/-- Match the fixed shape `dd:dd:dd.ddd` at the head of a character list,
returning the twelve matched characters and the remainder. -/
def matchTimestampChars : List Char → Option (List Char × List Char)
  | h1 :: h2 :: c1 :: m1 :: m2 :: c2 :: s1 :: s2 :: d :: f1 :: f2 :: f3 :: rest =>
      if h1.isDigit ∧ h2.isDigit ∧ c1 = ':' ∧ m1.isDigit ∧ m2.isDigit ∧ c2 = ':' ∧
          s1.isDigit ∧ s2.isDigit ∧ d = '.' ∧ f1.isDigit ∧ f2.isDigit ∧ f3.isDigit then
        some ([h1, h2, c1, m1, m2, c2, s1, s2, d, f1, f2, f3], rest)
      else none
  | _ => none

/-- Match the whole timestamp pattern
`dd:dd:dd.ddd --> dd:dd:dd.ddd` at the head of a character list, returning
the two capture groups. -/
def matchCueAt (cs : List Char) : Option (String × String) :=
  match matchTimestampChars cs with
  | none => none
  | some (t1, rest) =>
      match rest with
      | ' ' :: '-' :: '-' :: '>' :: ' ' :: rest2 =>
          match matchTimestampChars rest2 with
          | none => none
          | some (t2, _) => some (String.mk t1, String.mk t2)
      | _ => none

/-- Leftmost occurrence of the timestamp pattern in a line
(`line.match(timestampRegex)`). -/
def findTimestampMatch : List Char → Option (String × String)
  | [] => none
  | c :: rest =>
      match matchCueAt (c :: rest) with
      | some m => some m
      | none => findTimestampMatch rest

/-- Splitting of a character list at every occurrence of a separator,
as `String.prototype.split` with a one-character separator:
`split '\n' "" = [""]`, separators at the ends produce empty pieces. -/
def splitOnChar (sep : Char) : List Char → List (List Char)
  | [] => [[]]
  | c :: rest =>
      match splitOnChar sep rest with
      | [] => [[c]]
      | piece :: pieces =>
          if c = sep then [] :: piece :: pieces else (c :: piece) :: pieces

/-- Whitespace trimming from both ends of a line, as
`String.prototype.trim` (the whitespace characters occurring in VTT text
are space, tab, CR and LF, which is `Char.isWhitespace`). -/
def trimChars (cs : List Char) : List Char :=
  ((cs.dropWhile Char.isWhitespace).reverse.dropWhile Char.isWhitespace).reverse

/-- Numeric value of a digit character. -/
def digitVal (c : Char) : ℕ := c.toNat - '0'.toNat

/-- Value of a run of decimal digits. -/
def digitsVal (cs : List Char) : ℕ := cs.foldl (fun a c => a * 10 + digitVal c) 0

/-- Embedding of `parseFloat` restricted to the strings the timestamp regex can
produce: decimal digits with at most one dot.  Other shapes are never
reached from `timestampToSeconds` on matched input; they yield 0 here
(JS would yield `NaN`). -/
def parseDecimal (cs : List Char) : ℚ :=
  match splitOnChar '.' cs with
  | [intPart] => digitsVal intPart
  | [intPart, fracPart] =>
      (digitsVal intPart : ℚ) +
        (digitsVal fracPart : ℚ) / ((10 ^ fracPart.length : ℕ) : ℚ)
  | _ => 0

/-- Embedding of `timestampToSeconds(timestamp)`:
`timestamp.split(':')` mapped through `parseFloat`, then
`hours * 3600 + minutes * 60 + seconds`.  Shapes without exactly three
components are never produced by the regex; they yield 0 here (JS would
yield `NaN`). -/
def timestampToSeconds (timestamp : String) : ℚ :=
  match splitOnChar ':' timestamp.data with
  | [hours, minutes, seconds] =>
      parseDecimal hours * 3600 + parseDecimal minutes * 60 + parseDecimal seconds
  | _ => 0

/-- Loop of `parseVttContent` over the lines, carrying `currentSubtitle`
and the accumulated `subtitles` array. -/
def parseVttLines : List (List Char) → Option Subtitle → List Subtitle → List Subtitle
  | [], currentSubtitle, subtitles =>
      match currentSubtitle with
      | some c => if c.text ≠ "" then subtitles ++ [c] else subtitles
      | none => subtitles
  | rawLine :: rest, currentSubtitle, subtitles =>
      let line := trimChars rawLine
      if line = [] ∨ line = "WEBVTT".data then
        parseVttLines rest currentSubtitle subtitles
      else
        match findTimestampMatch line with
        | some (t1, t2) =>
            let subtitles :=
              match currentSubtitle with
              | some c => if c.text ≠ "" then subtitles ++ [c] else subtitles
              | none => subtitles
            parseVttLines rest
              (some { start := timestampToSeconds t1, stop := timestampToSeconds t2, text := "" })
              subtitles
        | none =>
            match currentSubtitle with
            | some c =>
                parseVttLines rest
                  (some { c with
                    text :=
                      if c.text ≠ "" then c.text ++ " " ++ String.mk line
                      else String.mk line })
                  subtitles
            | none => parseVttLines rest none subtitles

/-- Embedding of `parseVttContent(vttContent)`: split on newlines and run
the cue-accumulating loop.  Total by construction: every input string
yields a subtitle list, no exception paths exist. -/
def parseVttContent (vttContent : String) : List Subtitle :=
  parseVttLines (splitOnChar '\n' vttContent.data) none []

/-! ### Session store of `src/unnamed/part_004` -/

namespace SessionStore

/-- Subtitle object stored by `addSubtitle` of `src/unnamed/part_004`:
the incoming subtitle fields together with the defaulted `timestamp`,
`videoTimestamp` and `id`. -/
structure StoredSubtitle where
  start : ℚ
  stop : ℚ
  text : String
  timestamp : ℚ
  videoTimestamp : ℚ
  id : String
deriving DecidableEq

/-- Argument of `addSubtitle`; `timestamp`, `videoTimestamp` and `id` may
be absent and are then defaulted (JS `||`, so 0 and the empty string also
take the default). -/
structure IncomingSubtitle where
  start : ℚ
  stop : ℚ
  text : String
  timestamp : Option ℚ := none
  videoTimestamp : Option ℚ := none
  id : Option String := none

/-- Slice of the part_004 session record read and written by
`addSubtitle`: `session.subtitles` and `session.videoState.currentTime`. -/
structure StoreSession where
  subtitles : List StoredSubtitle
  videoCurrentTime : ℚ
deriving DecidableEq

/-- The `processedSubtitle` object built by `addSubtitle`; `now` is
`Date.now()` and `freshId` the generated `sub-...` identifier. -/
def processSubtitle (session : StoreSession) (subtitle : IncomingSubtitle)
    (now : ℚ) (freshId : String) : StoredSubtitle :=
  { start := subtitle.start
    stop := subtitle.stop
    text := subtitle.text
    timestamp := orFalsyRat subtitle.timestamp now
    videoTimestamp := orFalsyRat subtitle.videoTimestamp session.videoCurrentTime
    id := orFalsyStr subtitle.id freshId }

/-- Embedding of `addSubtitle(sessionId, subtitle)` restricted to one
session record: push the processed subtitle, then keep only the 1000 most
recent entries (`session.subtitles = session.subtitles.slice(-1000)` when
the length exceeds 1000). -/
def addSubtitleToSession (session : StoreSession) (subtitle : IncomingSubtitle)
    (now : ℚ) (freshId : String) : StoreSession :=
  let processed := processSubtitle session subtitle now freshId
  let subtitles := session.subtitles ++ [processed]
  let subtitles :=
    if 1000 < subtitles.length then subtitles.drop (subtitles.length - 1000) else subtitles
  { session with subtitles := subtitles }

/-- Embedding of `addSubtitle(sessionId, subtitle)` over the `sessions`
registry: `false` and no change when the session does not exist. -/
def addSubtitle (sessions : List (String × StoreSession)) (sessionId : String)
    (subtitle : IncomingSubtitle) (now : ℚ) (freshId : String) :
    Bool × List (String × StoreSession) :=
  match sessions.find? (fun p => p.1 = sessionId) with
  | none => (false, sessions)
  | some _ =>
      (true, sessions.map (fun p =>
        if p.1 = sessionId then (p.1, addSubtitleToSession p.2 subtitle now freshId) else p))

end SessionStore

/-! ### Dispatch-counting scenario

The batching claim is about the number of batch dispatches when N chunks
are submitted back to back (so that every submission happens before any
batch completion) with the default options (batchSize 3, maxWorkers 2,
chunkDuration 10) and timestamps that never fire the time trigger (all 0).
`submitN` performs the submissions, `drainN` then completes the pending
batches oldest first until none remains (n completion steps always
suffice; completing with no batch in flight is a no-op). -/

/-- Initial state of the dispatch-counting scenario: one session `"s"`
with the default options. -/
def schedState0 : ServiceState := (initSession emptyState (some "s") "uuid" {} 0).2

/-- Submit `n` chunks, all with timestamp 0, back to back. -/
def submitN (st : ServiceState) : ℕ → ServiceState
  | 0 => st
  | n + 1 =>
      match processAudioChunk (submitN st n) "s" 0 0 with
      | Except.ok (_, st') => st'
      | Except.error _ => submitN st n

/-- Complete the oldest pending batch `n` times, each completion
transcribing successfully to an empty subtitle list. -/
def drainN (st : ServiceState) : ℕ → ServiceState
  | 0 => st
  | n + 1 => drainN (completeBatch st "s" 0 (Except.ok []) 0) n

/-- The whole scenario for `n` chunks: submissions, then completions. -/
def runPipeline (n : ℕ) : ServiceState := drainN (submitN schedState0 n) n

/-- Observer: how many batches the session has ever dispatched. -/
def sessionDispatchCount (st : ServiceState) (sessionId : String) : ℕ :=
  match getSession st sessionId with
  | none => 0
  | some session => session.dispatchCount

/-- Observer: the subtitles stored in a session (unsorted, as in
`session.subtitles`). -/
def sessionSubtitles (st : ServiceState) (sessionId : String) : List Subtitle :=
  match getSession st sessionId with
  | none => []
  | some session => session.subtitles

/-! ### Abstract scheduler

`Sch` is the projection of a session to the data the scheduler acts on:
queue length, worker count, in-flight batch sizes and dispatch count.  The
functions below mirror `processQueueLoop` / `processQueueSession` /
`processAudioChunk` / `completeBatch` on this projection for the
dispatch-counting scenario, and are related to the embedding by the
simulation lemmas further down. -/

/-- Scheduler projection of a session: queue length, worker count, number
of in-flight batches, dispatch count. -/
structure Sch where
  q : ℕ
  w : ℕ
  flight : ℕ
  dc : ℕ
deriving DecidableEq

/-- Projection of a session to its scheduler data. -/
def projSession (s : Session) : Sch :=
  ⟨s.processingQueue.length, s.activeWorkers, s.inFlight.length, s.dispatchCount⟩

/-- Projection of the scenario session of a service state. -/
def projState (st : ServiceState) : Sch :=
  match getSession st "s" with
  | none => ⟨0, 0, 0, 0⟩
  | some session => projSession session

/-- Abstraction of `processQueueLoop`. -/
def schLoop (batchSize maxWorkers : ℕ) : ℕ → Sch → Sch
  | 0, s => s
  | fuel + 1, s =>
      if 0 < s.q ∧ s.w < maxWorkers then
        let n := min batchSize s.q
        schLoop batchSize maxWorkers fuel ⟨s.q - n, s.w + 1, s.flight + 1, s.dc + 1⟩
      else s

/-- Abstraction of `processQueueSession`. -/
def schQueue (batchSize maxWorkers : ℕ) (s : Sch) : Sch :=
  if maxWorkers ≤ s.w then s else schLoop batchSize maxWorkers (s.q + maxWorkers) s

/-- Abstraction of one submission in the scenario (batchSize 3,
maxWorkers 2, time trigger never firing). -/
def schSubmit (s : Sch) : Sch :=
  let s' : Sch := ⟨s.q + 1, s.w, s.flight, s.dc⟩
  if 3 ≤ s'.q then schQueue 3 2 s' else s'

/-- Abstraction of one oldest-batch completion in the scenario. -/
def schComplete (s : Sch) : Sch :=
  if s.flight = 0 then s
  else
    let s' : Sch := ⟨s.q, s.w - 1, s.flight - 1, s.dc⟩
    if 0 < s'.q then schQueue 3 2 s' else s'

/-- Iterated abstract submissions. -/
def schSubmitN : ℕ → Sch → Sch
  | 0, s => s
  | n + 1, s => schSubmit (schSubmitN n s)

/-- Iterated abstract completions. -/
def schDrainN : ℕ → Sch → Sch
  | 0, s => s
  | n + 1, s => schDrainN n (schComplete s)

/-- The session value produced by one `processAudioChunk` call on an
existing session, factored out of the embedding for the simulation
proofs; `processAudioChunk_eq` checks the factoring definitionally. -/
def submitSession (session : Session) (sessionId : String) (timestamp now : ℚ) : Session :=
  let session := { session with lastActivityTime := now }
  let filename := chunkFilename sessionId session.chunkIndex now
  let session := { session with chunkIndex := session.chunkIndex + 1 }
  let chunk : Chunk :=
    { filename := filename, timestamp := timestamp,
      index := session.chunkIndex - 1, status := ChunkStatus.queued }
  let session :=
    { session with
      chunks := session.chunks ++ [chunk]
      processingQueue := session.processingQueue ++ [chunk] }
  if session.options.batchSize ≤ session.processingQueue.length ∨
      session.options.chunkDuration * 2 < timestamp - session.lastProcessedTime then
    processQueueSession session
  else session

/-- Invariant of the dispatch-counting scenario: session `"s"` exists,
has the default options (batchSize 3, maxWorkers 2, chunkDuration 10),
and every recorded timestamp is 0, so the time trigger
`timestamp - lastProcessedTime > 2 * chunkDuration` never fires. -/
def SchedInv (st : ServiceState) : Prop :=
  ∃ session, getSession st "s" = some session ∧
    session.options.batchSize = 3 ∧
    session.options.maxWorkers = 2 ∧
    session.options.chunkDuration = 10 ∧
    session.lastProcessedTime = 0 ∧
    (∀ c ∈ session.processingQueue, c.timestamp = 0) ∧
    (∀ b ∈ session.inFlight, ∀ c ∈ b, c.timestamp = 0)

/-! ### Observers and concrete demonstration states -/

/-- Observer: number of chunk records of a session. -/
def sessionChunkCount (st : ServiceState) (sessionId : String) : ℕ :=
  match getSession st sessionId with
  | none => 0
  | some session => session.chunks.length

/-- Concrete service state holding one session `"s"` with a single stored
segment; used by witnesses. -/
def rangeDemoState : ServiceState :=
  { activeSessions :=
      [("s", { defaultSession with
          id := "s"
          subtitles := [{ start := 1, stop := 3, text := "w" }] })]
    tempFiles := [] }

/-- The session record of `"s"` right after `initSession`. -/
def schedSession0 : Session := (getSession schedState0 "s").getD default

/-- First of two submissions with the same source timestamp 5 (hence the
same dedup bucket for any fixed bucket size). -/
def dedupSubmit1 : SubmitResult × ServiceState :=
  (processAudioChunk schedState0 "s" 5 0).toOption.getD default

/-- Second submission with the same source timestamp 5, while the first
chunk is still unprocessed. -/
def dedupSubmit2 : SubmitResult × ServiceState :=
  (processAudioChunk dedupSubmit1.2 "s" 5 1).toOption.getD default

/-- A stored subtitle with a small start time. -/
def storedZero : SessionStore.StoredSubtitle :=
  { start := 0, stop := 1, text := "old", timestamp := 1, videoTimestamp := 0, id := "z" }

/-- A stored subtitle with a large start time, inserted first. -/
def storedLate : SessionStore.StoredSubtitle :=
  { start := 100, stop := 101, text := "first", timestamp := 1, videoTimestamp := 0, id := "a" }

/-- A full session-store timeline: the subtitle with the largest start
time was inserted first, followed by 999 subtitles with start 0. -/
def storeFull : SessionStore.StoreSession :=
  { subtitles := storedLate :: List.replicate 999 storedZero, videoCurrentTime := 0 }

/-- The next incoming subtitle, with start 0. -/
def storeIncoming : SessionStore.IncomingSubtitle :=
  { start := 0, stop := 1, text := "new" }

/-- The store after the 1001st append. -/
def storePushed : SessionStore.StoreSession :=
  SessionStore.addSubtitleToSession storeFull storeIncoming 5 "n"

/-- The session record of `rangeDemoState`. -/
def rangeDemoSession : Session := (getSession rangeDemoState "s").getD default

/-- Four back-to-back submissions at timestamp 0; the third dispatches a
batch of three, the fourth stays queued. -/
def failDemo1 : SubmitResult × ServiceState :=
  (processAudioChunk schedState0 "s" 0 0).toOption.getD default

/-- Second submission of the failure demo. -/
def failDemo2 : SubmitResult × ServiceState :=
  (processAudioChunk failDemo1.2 "s" 0 1).toOption.getD default

/-- Third submission of the failure demo (dispatches a batch). -/
def failDemo3 : SubmitResult × ServiceState :=
  (processAudioChunk failDemo2.2 "s" 0 2).toOption.getD default

/-- Fourth submission of the failure demo (stays queued). -/
def failDemo4 : SubmitResult × ServiceState :=
  (processAudioChunk failDemo3.2 "s" 0 3).toOption.getD default

/-- The session right before the batch completion fails. -/
def failDemoSession : Session := (getSession failDemo4.2 "s").getD default

/-- The failure-demo batch in flight. -/
def failDemoBatch : List Chunk := failDemoSession.inFlight.headD []

/-- State after the dispatched batch fails transcription at time 50;
the fourth chunk then dispatches as a batch of one. -/
def failDemoState : ServiceState :=
  completeBatch failDemo4.2 "s" 0 (Except.error ()) 50

/-- Result of ending the failure-demo session at time 100 while the
one-chunk batch is still in flight. -/
def failDemoEnd : EndResult × ServiceState :=
  (endSession failDemoState "s" 100).toOption.getD default

/-- Helper for the parser claim: when no line of the document contains the
timestamp pattern, the cue loop never opens a cue and returns its
accumulator unchanged. -/
theorem parseVttLines_no_match (lines : List (List Char)) (acc : List Subtitle)
    (h : ∀ line ∈ lines, findTimestampMatch (trimChars line) = none) :
    parseVttLines lines none acc = acc := by
  induction lines generalizing acc with
  | nil => rfl
  | cons l rest ih =>
      have hl := h l (List.mem_cons_self _ _)
      have hrest : ∀ line ∈ rest, findTimestampMatch (trimChars line) = none :=
        fun x hx => h x (List.mem_cons_of_mem _ hx)
      unfold parseVttLines
      by_cases hc : trimChars l = [] ∨ trimChars l = "WEBVTT".data
      · simp only [hc, if_true]
        exact ih acc hrest
      · simp only [hc, if_false, hl]
        exact ih acc hrest

section Theorems

attribute [local semireducible] Rat.add Rat.sub Rat.mul Rat.inv Rat.ofScientific

/-- Claim C10: for a sessionId with no active session, the read
operations `getSubtitles` and `getSubtitlesInRange` return the empty list
without raising, whereas `processAudioChunk` and `endSession` throw a
`Session ... not found` error.  The embedding is state passing, so an
`Except.error` result leaves the registry and every other session
unchanged by construction. -/
theorem unknown_session_behaviour (st : ServiceState) (sessionId : String)
    (t0 t1 timestamp now : ℚ) (h : getSession st sessionId = none) :
    getSubtitles st sessionId = [] ∧
    getSubtitlesInRange st sessionId t0 t1 = [] ∧
    processAudioChunk st sessionId timestamp now =
      Except.error ("Session " ++ sessionId ++ " not found") ∧
    endSession st sessionId now =
      Except.error ("Session " ++ sessionId ++ " not found") := by
  refine ⟨?_, ?_, ?_, ?_⟩
  · simp [getSubtitles, h]
  · simp [getSubtitlesInRange, getSubtitles, h]
  · simp [processAudioChunk, h]
  · simp [endSession, h]

/-- Witness for C10 at the empty service state and session id `"x"`. -/
theorem unknown_session_behaviour_witness :
    getSubtitles emptyState "x" = [] ∧
    getSubtitlesInRange emptyState "x" 0 10 = [] ∧
    processAudioChunk emptyState "x" 0 0 =
      Except.error ("Session " ++ "x" ++ " not found") ∧
    endSession emptyState "x" 0 =
      Except.error ("Session " ++ "x" ++ " not found") :=
  unknown_session_behaviour emptyState "x" 0 10 0 0 (by decide)

/-- Claim C7: the segment list exposed by `getSubtitles` has monotonically
non-decreasing start times in every reachable state — the function sorts a
copy of `session.subtitles` by start time on every read, so the exposed
list is sorted after any sequence of appends and for every
batch-completion interleaving. -/
theorem getSubtitles_sorted (st : ServiceState) (sessionId : String) :
    List.Pairwise (fun a b : Subtitle => a.start ≤ b.start)
      (getSubtitles st sessionId) := by
  haveI : IsTotal Subtitle (fun a b : Subtitle => a.start ≤ b.start) :=
    ⟨fun a b => le_total a.start b.start⟩
  haveI : IsTrans Subtitle (fun a b : Subtitle => a.start ≤ b.start) :=
    ⟨fun _ _ _ hab hbc => le_trans hab hbc⟩
  unfold getSubtitles
  cases getSession st sessionId with
  | none => simp
  | some session => exact List.sorted_insertionSort _ _

/-- Claim C6: for a session whose stored segments satisfy
`start ≤ stop`, and bounds `t0 ≤ t1`, `getSubtitlesInRange` returns
exactly the stored segments with `start ≤ t1` and `t0 ≤ stop`. -/
theorem getSubtitlesInRange_spec (st : ServiceState) (sessionId : String)
    (t0 t1 : ℚ) (hwf : ∀ s ∈ sessionSubtitles st sessionId, s.start ≤ s.stop)
    (ht : t0 ≤ t1) (sub : Subtitle) :
    sub ∈ getSubtitlesInRange st sessionId t0 t1 ↔
      sub ∈ sessionSubtitles st sessionId ∧ sub.start ≤ t1 ∧ t0 ≤ sub.stop := by
  have hperm : List.Perm (getSubtitles st sessionId) (sessionSubtitles st sessionId) := by
    unfold getSubtitles sessionSubtitles
    cases getSession st sessionId with
    | none => rfl
    | some session => exact List.perm_insertionSort _ _
  unfold getSubtitlesInRange
  rw [List.mem_filter, hperm.mem_iff, decide_eq_true_iff]
  constructor
  · rintro ⟨hmem, hcond⟩
    refine ⟨hmem, ?_⟩
    have hss := hwf sub hmem
    rcases hcond with ⟨h1, h2⟩ | ⟨h1, h2⟩ | ⟨h1, h2⟩
    · exact ⟨h2, le_trans h1 hss⟩
    · exact ⟨le_trans hss h2, h1⟩
    · exact ⟨le_trans h1 ht, le_trans ht h2⟩
  · rintro ⟨hmem, h1, h2⟩
    refine ⟨hmem, ?_⟩
    rcases le_or_lt t0 sub.start with hs | hs
    · exact Or.inl ⟨hs, h1⟩
    · rcases le_or_lt sub.stop t1 with he | he
      · exact Or.inr (Or.inl ⟨h2, he⟩)
      · exact Or.inr (Or.inr ⟨le_of_lt hs, le_of_lt he⟩)

/-- Witness for C6: a one-segment session, query window [2, 6]. -/
theorem getSubtitlesInRange_spec_witness :
    { start := 1, stop := 3, text := "w" } ∈
        getSubtitlesInRange rangeDemoState "s" 2 6 ↔
      { start := 1, stop := 3, text := "w" } ∈ sessionSubtitles rangeDemoState "s" ∧
        (1 : ℚ) ≤ 6 ∧ (2 : ℚ) ≤ 3 :=
  getSubtitlesInRange_spec rangeDemoState "s" 2 6 (by decide) (by decide) _

/-- Claim C9: the caption-document parser never raises (it is a total
function on strings by construction), and on any input none of whose
lines contains the `HH:MM:SS.mmm --> HH:MM:SS.mmm` timestamp pattern it
returns the empty list.  The pattern starts and ends with digits, so a
line contains a match exactly when its trimmed form does, which is what
the code tests. -/
theorem parseVttContent_no_timestamp_empty (vttContent : String)
    (h : ∀ line ∈ splitOnChar '\n' vttContent.data,
      findTimestampMatch (trimChars line) = none) :
    parseVttContent vttContent = [] := by
  unfold parseVttContent
  exact parseVttLines_no_match (splitOnChar '\n' vttContent.data) [] h

/-- Witness for C9 on a concrete timestamp-free document. -/
theorem parseVttContent_no_timestamp_empty_witness :
    parseVttContent "WEBVTT\nhello world\n\n00:00 incomplete" = [] :=
  parseVttContent_no_timestamp_empty _ (by decide)

/-! Helper lemmas about the session map and the queue loop. -/

theorem mapSet_find_self (m : List (String × Session)) (k : String) (v : Session) :
    (mapSet m k v).find? (fun p => p.1 = k) = some (k, v) := by
  induction m with
  | nil => simp [mapSet]
  | cons p rest ih =>
      by_cases h : p.1 = k
      · simp [mapSet, h]
      · simp [mapSet, h, List.find?, ih]

/-- Looking up a session right after storing it. -/
theorem getSession_set (m : List (String × Session)) (k : String) (v : Session)
    (tf : List String) :
    getSession { activeSessions := mapSet m k v, tempFiles := tf } k = some v := by
  unfold getSession
  rw [mapSet_find_self]

/-- Chunk count of a session right after storing it. -/
theorem sessionChunkCount_set (m : List (String × Session)) (k : String) (v : Session)
    (tf : List String) :
    sessionChunkCount { activeSessions := mapSet m k v, tempFiles := tf } k =
      v.chunks.length := by
  unfold sessionChunkCount
  rw [getSession_set]

/-- The queue loop only re-labels chunk statuses in `session.chunks`, so
the number of chunk records is preserved. -/
theorem processQueueLoop_chunks_length (fuel : ℕ) (s : Session) :
    (processQueueLoop fuel s).chunks.length = s.chunks.length := by
  induction fuel generalizing s with
  | zero => rfl
  | succ n ih =>
      unfold processQueueLoop
      split
      · rw [ih]; simp [setStatuses]
      · rfl

/-- Wrapper fact: `processQueueSession` preserves the number of chunk records. -/
theorem processQueueSession_chunks_length (s : Session) :
    (processQueueSession s).chunks.length = s.chunks.length := by
  unfold processQueueSession
  split
  · rfl
  · exact processQueueLoop_chunks_length _ _

/-- The queue loop never touches the subtitle timeline. -/
theorem processQueueLoop_subtitles (fuel : ℕ) (s : Session) :
    (processQueueLoop fuel s).subtitles = s.subtitles := by
  induction fuel generalizing s with
  | zero => rfl
  | succ n ih =>
      unfold processQueueLoop
      split
      · rw [ih]
      · rfl

/-- Wrapper fact: `processQueueSession` never touches the subtitle timeline. -/
theorem processQueueSession_subtitles (s : Session) :
    (processQueueSession s).subtitles = s.subtitles := by
  unfold processQueueSession
  split
  · rfl
  · exact processQueueLoop_subtitles _ _

/-- The queue after the loop is a suffix of the queue before it: chunks
are only spliced off the front, never re-enqueued. -/
theorem processQueueLoop_queue_suffix (fuel : ℕ) (s : Session) :
    List.IsSuffix (processQueueLoop fuel s).processingQueue s.processingQueue := by
  induction fuel generalizing s with
  | zero => exact List.suffix_refl _
  | succ n ih =>
      unfold processQueueLoop
      split
      · exact (ih _).trans (List.drop_suffix _ _)
      · exact List.suffix_refl _

/-- Wrapper fact: `processQueueSession` leaves a suffix of the queue. -/
theorem processQueueSession_queue_suffix (s : Session) :
    List.IsSuffix (processQueueSession s).processingQueue s.processingQueue := by
  unfold processQueueSession
  split
  · exact List.suffix_refl _
  · exact processQueueLoop_queue_suffix _ _

/-- The dispatch count never decreases through the queue loop. -/
theorem processQueueLoop_dc_mono (fuel : ℕ) (s : Session) :
    s.dispatchCount ≤ (processQueueLoop fuel s).dispatchCount := by
  induction fuel generalizing s with
  | zero => exact le_refl _
  | succ n ih =>
      unfold processQueueLoop
      split
      · dsimp only
        refine le_trans ?_ (ih _)
        exact Nat.le_succ _
      · exact le_refl _

/-- With a non-empty queue, a free worker slot and fuel, the loop
dispatches at least one batch. -/
theorem processQueueLoop_dispatches (fuel : ℕ) (s : Session)
    (hq : 0 < s.processingQueue.length) (hw : s.activeWorkers < s.options.maxWorkers)
    (hf : 0 < fuel) :
    s.dispatchCount < (processQueueLoop fuel s).dispatchCount := by
  cases fuel with
  | zero => omega
  | succ n =>
      unfold processQueueLoop
      rw [if_pos ⟨hq, hw⟩]
      dsimp only
      refine lt_of_lt_of_le ?_ (processQueueLoop_dc_mono n _)
      exact Nat.lt_succ_self _

/-- With a non-empty queue and a free worker slot, `processQueueSession`
dispatches at least one batch. -/
theorem processQueueSession_dispatches (s : Session)
    (hq : 0 < s.processingQueue.length) (hw : s.activeWorkers < s.options.maxWorkers) :
    s.dispatchCount < (processQueueSession s).dispatchCount := by
  unfold processQueueSession
  rw [if_neg (by omega)]
  exact processQueueLoop_dispatches _ _ hq hw (by omega)

/-- Case analysis for one element of `setStatuses`: it is either a chunk
whose index is in the marked set, now carrying the new status, or an
untouched chunk of the original list. -/
theorem setStatuses_cases (indices : List ℕ) (status : ChunkStatus)
    (chunks : List Chunk) (c : Chunk) (hc : c ∈ setStatuses indices status chunks) :
    (c.index ∈ indices ∧ c.status = status) ∨
      (c ∈ chunks ∧ c.index ∉ indices) := by
  rcases List.mem_map.mp hc with ⟨c0, hc0, rfl⟩
  by_cases h : indices.contains c0.index = true
  · rw [if_pos h]
    exact Or.inl ⟨List.elem_iff.mp h, rfl⟩
  · rw [if_neg h]
    exact Or.inr ⟨hc0, fun hm => h (List.elem_iff.mpr hm)⟩

/-- Chunks whose indices are disjoint from the whole queue keep their
status through the queue loop: the loop marks only chunks it dispatches
from the queue. -/
theorem processQueueLoop_failed_preserved (fuel : ℕ) (s : Session) (idxs : List ℕ)
    (hdisj : ∀ c ∈ s.processingQueue, c.index ∉ idxs)
    (hst : ∀ c ∈ s.chunks, c.index ∈ idxs → c.status = ChunkStatus.failed) :
    ∀ c ∈ (processQueueLoop fuel s).chunks, c.index ∈ idxs →
      c.status = ChunkStatus.failed := by
  induction fuel generalizing s with
  | zero => exact hst
  | succ n ih =>
      unfold processQueueLoop
      split
      · dsimp only
        apply ih
        · intro c hc
          exact hdisj c (List.mem_of_mem_drop hc)
        · intro c hc hci
          rcases setStatuses_cases _ _ _ _ hc with ⟨hin, _⟩ | ⟨hold, _⟩
          · exfalso
            have hin' : c.index ∈
                List.map Chunk.index
                  (s.processingQueue.take (min s.options.batchSize s.processingQueue.length)) := by
              rw [List.map_map] at hin
              exact hin
            rcases List.mem_map.mp hin' with ⟨c2, hc2, hceq⟩
            exact hdisj c2 (List.mem_of_mem_take hc2) (hceq ▸ hci)
          · exact hst c hold hci
      · exact hst

/-- Wrapper fact: `processQueueSession` preserves failed marks of chunks disjoint from
the queue. -/
theorem processQueueSession_failed_preserved (s : Session) (idxs : List ℕ)
    (hdisj : ∀ c ∈ s.processingQueue, c.index ∉ idxs)
    (hst : ∀ c ∈ s.chunks, c.index ∈ idxs → c.status = ChunkStatus.failed) :
    ∀ c ∈ (processQueueSession s).chunks, c.index ∈ idxs →
      c.status = ChunkStatus.failed := by
  unfold processQueueSession
  split
  · exact hst
  · exact processQueueLoop_failed_preserved _ _ _ hdisj hst

/-- Claim C1 (amended): there is no dedup gate.  Every submission to an
existing session returns `status: 'queued'` and appends one chunk record,
whatever its timestamp — in particular a submission whose timestamp falls
in the same time bucket as an outstanding one. -/
theorem processAudioChunk_always_queued (st : ServiceState) (sessionId : String)
    (timestamp now : ℚ) (session : Session)
    (h : getSession st sessionId = some session) :
    ∃ r st', processAudioChunk st sessionId timestamp now = Except.ok (r, st') ∧
      r.status = "queued" ∧
      sessionChunkCount st' sessionId = sessionChunkCount st sessionId + 1 := by
  unfold processAudioChunk
  rw [h]
  refine ⟨_, _, rfl, rfl, ?_⟩
  rw [sessionChunkCount_set]
  unfold sessionChunkCount
  rw [h]
  split
  · rw [processQueueSession_chunks_length]
    simp
  · simp

/-- Witness for the amended C1 at the freshly initialised session. -/
theorem processAudioChunk_always_queued_witness :
    ∃ r st', processAudioChunk schedState0 "s" 5 0 = Except.ok (r, st') ∧
      r.status = "queued" ∧
      sessionChunkCount st' "s" = sessionChunkCount schedState0 "s" + 1 :=
  processAudioChunk_always_queued schedState0 "s" 5 0 schedSession0 (by decide)

/-- Counterexample to C1 as stated: two submissions with the same source
timestamp (same dedup bucket) while the first is still outstanding are
BOTH processed into chunks, both return `status: 'queued'`, and neither
returns `status: 'deduped'`. -/
theorem no_dedup_counterexample :
    dedupSubmit1.1.status = "queued" ∧
    dedupSubmit2.1.status = "queued" ∧
    dedupSubmit2.1.status ≠ "deduped" ∧
    sessionChunkCount dedupSubmit2.2 "s" = 2 := by
  decide

/-- Claim C8 (amended): in the part_004 session store, every append keeps
at most 1000 entries, the newly appended subtitle is always retained, and
the surviving entries are a suffix of the append sequence (eviction is
oldest-first by insertion order). -/
theorem addSubtitleToSession_bounded (session : SessionStore.StoreSession)
    (subtitle : SessionStore.IncomingSubtitle) (now : ℚ) (freshId : String) :
    (SessionStore.addSubtitleToSession session subtitle now freshId).subtitles.length ≤ 1000 ∧
    SessionStore.processSubtitle session subtitle now freshId ∈
      (SessionStore.addSubtitleToSession session subtitle now freshId).subtitles ∧
    List.IsSuffix
      (SessionStore.addSubtitleToSession session subtitle now freshId).subtitles
      (session.subtitles ++ [SessionStore.processSubtitle session subtitle now freshId]) := by
  unfold SessionStore.addSubtitleToSession
  by_cases h :
      1000 <
        (session.subtitles ++ [SessionStore.processSubtitle session subtitle now freshId]).length
  · simp only [h, if_true]
    refine ⟨?_, ?_, List.drop_suffix _ _⟩
    · rw [List.length_drop]
      omega
    · have hk :
          (session.subtitles ++
              [SessionStore.processSubtitle session subtitle now freshId]).length - 1000 ≤
            session.subtitles.length := by
        simp only [List.length_append, List.length_singleton]
        omega
      rw [List.drop_append_of_le_length hk]
      exact List.mem_append_right _ (List.mem_singleton.mpr rfl)
  · simp only [h, if_false]
    exact ⟨by omega,
      List.mem_append_right _ (List.mem_singleton.mpr rfl),
      List.suffix_refl _⟩

/-- Appending to a store timeline already holding exactly 1000 entries
drops exactly the oldest inserted entry. -/
theorem addSubtitleToSession_overflow (session : SessionStore.StoreSession)
    (subtitle : SessionStore.IncomingSubtitle) (now : ℚ) (freshId : String)
    (h : session.subtitles.length = 1000) :
    (SessionStore.addSubtitleToSession session subtitle now freshId).subtitles =
      session.subtitles.tail ++
        [SessionStore.processSubtitle session subtitle now freshId] := by
  simp only [SessionStore.addSubtitleToSession]
  have h1 :
      (session.subtitles ++
          [SessionStore.processSubtitle session subtitle now freshId]).length = 1001 := by
    simp [h]
  rw [if_pos (by rw [h1]; omega), h1]
  have h2 : (1001 - 1000 : ℕ) = 1 := rfl
  rw [h2, List.drop_append_of_le_length (by omega), List.drop_one]

/-- Counterexample to C8 as stated: on overflow the store evicts the
oldest INSERTED entry, not the entry with the oldest start time.  Here the
evicted entry has start time 100 while 999 retained entries have start
time 0. -/
theorem addSubtitle_not_fifo_by_start :
    storePushed.subtitles.length = 1000 ∧
    storedLate ∉ storePushed.subtitles ∧
    storedZero ∈ storePushed.subtitles ∧
    storedZero.start < storedLate.start := by
  have hfull : storeFull.subtitles.length = 1000 := by
    show (storedLate :: List.replicate 999 storedZero).length = 1000
    rw [List.length_cons, List.length_replicate]
  have hlist : storePushed.subtitles =
      List.replicate 999 storedZero ++
        [SessionStore.processSubtitle storeFull storeIncoming 5 "n"] := by
    unfold storePushed
    rw [addSubtitleToSession_overflow storeFull storeIncoming 5 "n" hfull]
    rfl
  refine ⟨?_, ?_, ?_, by decide⟩
  · rw [hlist, List.length_append, List.length_replicate, List.length_singleton]
  · rw [hlist]
    intro hmem
    rcases List.mem_append.mp hmem with hrep | hone
    · exact absurd (List.eq_of_mem_replicate hrep) (by decide)
    · exact absurd (List.mem_singleton.mp hone) (by decide)
  · rw [hlist]
    exact List.mem_append_left _ (List.mem_replicate.mpr ⟨by decide, rfl⟩)

/-- Equation for `processQueue` on an existing session. -/
theorem processQueue_eq (st : ServiceState) (sessionId : String) (session : Session)
    (h : getSession st sessionId = some session) :
    processQueue st sessionId =
      { st with
        activeSessions := mapSet st.activeSessions sessionId (processQueueSession session) } := by
  simp only [processQueue, h]

/-- Fact: `processQueue` never touches the temp directory. -/
theorem processQueue_tempFiles (st : ServiceState) (sessionId : String) :
    (processQueue st sessionId).tempFiles = st.tempFiles := by
  unfold processQueue
  cases getSession st sessionId <;> rfl

/-- Fact: `batchFinally` never touches the temp directory. -/
theorem batchFinally_tempFiles (st : ServiceState) (sessionId : String)
    (chunkBatch : List Chunk) :
    (batchFinally st sessionId chunkBatch).tempFiles = st.tempFiles := by
  unfold batchFinally
  cases getSession st sessionId with
  | none => rfl
  | some session =>
      dsimp only
      split
      · rw [processQueue_tempFiles]
      · rfl

/-- Equation for `batchFinally` on an existing session. -/
theorem batchFinally_eq (st : ServiceState) (sessionId : String)
    (chunkBatch : List Chunk) (session : Session)
    (h : getSession st sessionId = some session) :
    batchFinally st sessionId chunkBatch =
      (if 0 < session.processingQueue.length then
        processQueue
          { st with
            activeSessions := mapSet st.activeSessions sessionId
              { session with
                activeWorkers := session.activeWorkers - 1
                lastProcessedTime := maxTimestamp chunkBatch } }
          sessionId
      else
        { st with
          activeSessions := mapSet st.activeSessions sessionId
            { session with
              activeWorkers := session.activeWorkers - 1
              lastProcessedTime := maxTimestamp chunkBatch } }) := by
  simp only [batchFinally, h]

/-- The failure path of `completeBatch` characterized: mark the sorted
batch's chunks failed, record the merged artifact, then run the
`.finally()`. -/
theorem completeBatch_error_eq (st : ServiceState) (sessionId : String) (k : ℕ)
    (err : Unit) (now : ℚ) (session : Session) (rawBatch : List Chunk)
    (h : getSession st sessionId = some session)
    (hb : session.inFlight[k]? = some rawBatch) :
    completeBatch st sessionId k (Except.error err) now =
      batchFinally
        { activeSessions :=
            mapSet st.activeSessions sessionId
              { session with
                inFlight := session.inFlight.eraseIdx k
                chunks :=
                  setStatuses ((sortBatch rawBatch).map Chunk.index) ChunkStatus.failed
                    session.chunks }
          tempFiles := st.tempFiles ++ [mergedFilename sessionId now] }
        sessionId (sortBatch rawBatch) := by
  simp only [completeBatch, h, hb]

/-- The success path of `completeBatch` characterized. -/
theorem completeBatch_ok_eq (st : ServiceState) (sessionId : String) (k : ℕ)
    (rawSubtitles : List Subtitle) (now : ℚ) (session : Session) (rawBatch : List Chunk)
    (h : getSession st sessionId = some session)
    (hb : session.inFlight[k]? = some rawBatch) :
    completeBatch st sessionId k (Except.ok rawSubtitles) now =
      batchFinally
        { activeSessions :=
            mapSet st.activeSessions sessionId
              { session with
                inFlight := session.inFlight.eraseIdx k
                subtitles :=
                  List.insertionSort (fun a b : Subtitle => a.start ≤ b.start)
                    (session.subtitles ++
                      adjustSubtitleTimestamps rawSubtitles
                        (match sortBatch rawBatch with
                         | [] => 0
                         | c :: _ => c.timestamp))
                chunks :=
                  setStatuses ((sortBatch rawBatch).map Chunk.index) ChunkStatus.processed
                    session.chunks }
          tempFiles :=
            ((st.tempFiles ++ [mergedFilename sessionId now]).filter
                (fun f => !((sortBatch rawBatch).map Chunk.filename).contains f)).filter
              (fun f => f ≠ mergedFilename sessionId now) }
        sessionId (sortBatch rawBatch) := by
  simp only [completeBatch, h, hb]

/-- Claim C3: when the Transcription Service call of a batch fails, no
caption segment is appended, every chunk of the batch is marked `failed`
in the session's chunk registry, the batch's chunks are never re-enqueued
(the queue only shrinks), and the worker slot is released — if chunks are
queued and a slot is then free, a new batch dispatches in the same step.
The index-disjointness hypothesis states that the failed batch's chunks
are no longer queued, which holds for every dispatched batch. -/
theorem failed_batch_isolation (st : ServiceState) (sessionId : String)
    (session : Session) (rawBatch : List Chunk) (err : Unit) (now : ℚ)
    (h : getSession st sessionId = some session)
    (hb : session.inFlight[0]? = some rawBatch)
    (hdisj : ∀ c ∈ session.processingQueue, c.index ∉ rawBatch.map Chunk.index) :
    ∃ session',
      getSession (completeBatch st sessionId 0 (Except.error err) now) sessionId =
        some session' ∧
      session'.subtitles = session.subtitles ∧
      (∀ c ∈ session'.chunks, c.index ∈ rawBatch.map Chunk.index →
        c.status = ChunkStatus.failed) ∧
      List.IsSuffix session'.processingQueue session.processingQueue ∧
      (session.processingQueue = [] →
        session'.activeWorkers = session.activeWorkers - 1) ∧
      (0 < session.processingQueue.length →
        session.activeWorkers - 1 < session.options.maxWorkers →
        session.dispatchCount < session'.dispatchCount) := by
  have hidxperm :
      List.Perm ((sortBatch rawBatch).map Chunk.index) (rawBatch.map Chunk.index) :=
    (List.perm_insertionSort _ _).map _
  have hdisj' : ∀ c ∈ session.processingQueue,
      c.index ∉ (sortBatch rawBatch).map Chunk.index := by
    intro c hc hmem
    exact hdisj c hc (hidxperm.mem_iff.mp hmem)
  rw [completeBatch_error_eq st sessionId 0 err now session rawBatch h hb]
  rw [batchFinally_eq _ _ _
    { session with
      inFlight := session.inFlight.eraseIdx 0
      chunks :=
        setStatuses ((sortBatch rawBatch).map Chunk.index) ChunkStatus.failed
          session.chunks }
    (getSession_set _ _ _ _)]
  by_cases hq : 0 < session.processingQueue.length
  · rw [if_pos hq]
    rw [processQueue_eq _ _ _ (getSession_set _ _ _ _)]
    refine ⟨_, getSession_set _ _ _ _, ?_, ?_, ?_, ?_, ?_⟩
    · rw [processQueueSession_subtitles]
    · intro c hc hci
      refine processQueueSession_failed_preserved _
        ((sortBatch rawBatch).map Chunk.index) ?_ ?_ c hc (hidxperm.mem_iff.mpr hci)
      · exact hdisj'
      · intro c' hc' hci'
        rcases setStatuses_cases _ _ _ _ hc' with ⟨_, hs⟩ | ⟨_, hnot⟩
        · exact hs
        · exact absurd hci' hnot
    · exact processQueueSession_queue_suffix _
    · intro hempty
      rw [hempty] at hq
      exact absurd hq (by simp)
    · intro _ hw
      exact processQueueSession_dispatches
        { session with
          inFlight := session.inFlight.eraseIdx 0
          chunks :=
            setStatuses ((sortBatch rawBatch).map Chunk.index) ChunkStatus.failed
              session.chunks
          activeWorkers := session.activeWorkers - 1
          lastProcessedTime := maxTimestamp (sortBatch rawBatch) }
        hq hw
  · rw [if_neg hq]
    refine ⟨_, getSession_set _ _ _ _, rfl, ?_, List.suffix_refl _, fun _ => rfl, ?_⟩
    · intro c hc hci
      rcases setStatuses_cases _ _ _ _ hc with ⟨_, hs⟩ | ⟨_, hnot⟩
      · exact hs
      · exact absurd (hidxperm.mem_iff.mpr hci) hnot
    · intro hq2 _
      exact absurd hq2 hq

/-- Witness for C3: the four-chunk failure demo, completing the in-flight
three-chunk batch with a transcription error.  Its queue holds one chunk
and a slot is free, so the final conjunct dispatches a new batch. -/
theorem failed_batch_isolation_witness :
    ∃ session',
      getSession (completeBatch failDemo4.2 "s" 0 (Except.error ()) 50) "s" =
        some session' ∧
      session'.subtitles = failDemoSession.subtitles ∧
      (∀ c ∈ session'.chunks, c.index ∈ failDemoBatch.map Chunk.index →
        c.status = ChunkStatus.failed) ∧
      List.IsSuffix session'.processingQueue failDemoSession.processingQueue ∧
      (failDemoSession.processingQueue = [] →
        session'.activeWorkers = failDemoSession.activeWorkers - 1) ∧
      (0 < failDemoSession.processingQueue.length →
        failDemoSession.activeWorkers - 1 < failDemoSession.options.maxWorkers →
        failDemoSession.dispatchCount < session'.dispatchCount) :=
  failed_batch_isolation failDemo4.2 "s" failDemoSession failDemoBatch () 50
    (by decide) (by decide) (by decide)

/-- Claim C5 (amended): temp-artifact deletion depends on the exit path.
On transcription success the batch's chunk waveforms and the merged file
are all deleted; on transcription failure nothing is deleted — the files
linger until `endSession` (chunk files only) or the hourly sweep. -/
theorem batch_cleanup_by_path (st : ServiceState) (sessionId : String)
    (session : Session) (rawBatch : List Chunk) (rawSubtitles : List Subtitle)
    (err : Unit) (now : ℚ)
    (h : getSession st sessionId = some session)
    (hb : session.inFlight[0]? = some rawBatch) :
    (∀ c ∈ rawBatch,
      c.filename ∉ (completeBatch st sessionId 0 (Except.ok rawSubtitles) now).tempFiles) ∧
    mergedFilename sessionId now ∉
      (completeBatch st sessionId 0 (Except.ok rawSubtitles) now).tempFiles ∧
    (∀ f ∈ st.tempFiles,
      f ∈ (completeBatch st sessionId 0 (Except.error err) now).tempFiles) := by
  have hokfiles :
      (completeBatch st sessionId 0 (Except.ok rawSubtitles) now).tempFiles =
        ((st.tempFiles ++ [mergedFilename sessionId now]).filter
            (fun f => !((sortBatch rawBatch).map Chunk.filename).contains f)).filter
          (fun f => f ≠ mergedFilename sessionId now) := by
    rw [completeBatch_ok_eq st sessionId 0 rawSubtitles now session rawBatch h hb]
    rw [batchFinally_tempFiles]
  have herrfiles :
      (completeBatch st sessionId 0 (Except.error err) now).tempFiles =
        st.tempFiles ++ [mergedFilename sessionId now] := by
    rw [completeBatch_error_eq st sessionId 0 err now session rawBatch h hb]
    rw [batchFinally_tempFiles]
  refine ⟨?_, ?_, ?_⟩
  · intro c hc hmem
    rw [hokfiles] at hmem
    have hmem1 := (List.mem_filter.mp hmem).1
    have hcond := (List.mem_filter.mp hmem1).2
    have hcf : c.filename ∈ (sortBatch rawBatch).map Chunk.filename :=
      (((List.perm_insertionSort _ _).map Chunk.filename).mem_iff).mpr
        (List.mem_map.mpr ⟨c, hc, rfl⟩)
    have hcontains : ((sortBatch rawBatch).map Chunk.filename).contains c.filename = true :=
      List.elem_iff.mpr hcf
    rw [hcontains] at hcond
    exact absurd hcond (by decide)
  · intro hmem
    rw [hokfiles] at hmem
    have hcond := (List.mem_filter.mp hmem).2
    simp at hcond
  · intro f hf
    rw [herrfiles]
    exact List.mem_append_left _ hf

/-- Witness for the amended C5 at the four-chunk failure demo. -/
theorem batch_cleanup_by_path_witness :
    (∀ c ∈ failDemoBatch,
      c.filename ∉ (completeBatch failDemo4.2 "s" 0 (Except.ok []) 50).tempFiles) ∧
    mergedFilename "s" 50 ∉
      (completeBatch failDemo4.2 "s" 0 (Except.ok []) 50).tempFiles ∧
    (∀ f ∈ failDemo4.2.tempFiles,
      f ∈ (completeBatch failDemo4.2 "s" 0 (Except.error ()) 50).tempFiles) :=
  batch_cleanup_by_path failDemo4.2 "s" failDemoSession failDemoBatch [] () 50
    (by decide) (by decide)

/-- Counterexample to C5 as stated: after a failed batch, the three chunk
waveforms of the batch and the merged file all still exist. -/
theorem failed_batch_files_remain :
    chunkFilename "s" 0 0 ∈ failDemoState.tempFiles ∧
    chunkFilename "s" 1 1 ∈ failDemoState.tempFiles ∧
    chunkFilename "s" 2 2 ∈ failDemoState.tempFiles ∧
    mergedFilename "s" 50 ∈ failDemoState.tempFiles := by
  decide

/-- Searching for a key cannot succeed on a list filtered to exclude it. -/
theorem find_filter_ne (m : List (String × Session)) (k : String) :
    (m.filter (fun p => p.1 ≠ k)).find? (fun p => p.1 = k) = none := by
  induction m with
  | nil => rfl
  | cons a rest ih =>
      by_cases h : a.1 = k
      · simp [List.filter_cons, h, ih]
      · simp [List.filter_cons, List.find?_cons, h, ih]

/-- Deleting a session makes its lookup fail. -/
theorem getSession_delete (st : ServiceState) (k : String) (tf : List String) :
    getSession { activeSessions := mapDelete st.activeSessions k, tempFiles := tf } k =
      none := by
  unfold getSession mapDelete
  rw [find_filter_ne]

/-- Claim C4 (amended): `endSession` on an existing session returns — with
no waiting on in-flight batches — a snapshot holding every segment ever
appended sorted by start time, plus the session duration; it removes the
session, after which submissions are rejected, and it deletes the
session's chunk waveforms, but only those: merged-audio artifacts (for
example the one left by a failed batch) survive, so the temp-artifact set
need not be empty afterwards. -/
theorem endSession_spec (st : ServiceState) (sessionId : String) (now : ℚ)
    (session : Session) (h : getSession st sessionId = some session) :
    ∃ res st', endSession st sessionId now = Except.ok (res, st') ∧
      res.subtitles =
        List.insertionSort (fun a b : Subtitle => a.start ≤ b.start) session.subtitles ∧
      res.duration = (now - session.startTime) / 1000 ∧
      getSession st' sessionId = none ∧
      (∀ ts n, processAudioChunk st' sessionId ts n =
        Except.error ("Session " ++ sessionId ++ " not found")) ∧
      (∀ f ∈ st'.tempFiles,
        f ∈ st.tempFiles ∧ f ∉ session.chunks.map Chunk.filename) := by
  unfold endSession
  rw [h]
  refine ⟨_, _, rfl, ?_, rfl, getSession_delete _ _ _, ?_, ?_⟩
  · unfold getSubtitles
    rw [h]
  · intro ts n
    simp [processAudioChunk, getSession_delete]
  · intro f hf
    have hsplit := List.mem_filter.mp hf
    refine ⟨hsplit.1, ?_⟩
    intro hmem
    have hcontains : (session.chunks.map Chunk.filename).contains f = true :=
      List.elem_iff.mpr hmem
    have hsplit2 := hsplit.2
    rw [hcontains] at hsplit2
    exact absurd hsplit2 (by decide)

/-- Witness for the amended C4 at the one-segment demo session. -/
theorem endSession_spec_witness :
    ∃ res st', endSession rangeDemoState "s" 2000 = Except.ok (res, st') ∧
      res.subtitles =
        List.insertionSort (fun a b : Subtitle => a.start ≤ b.start)
          rangeDemoSession.subtitles ∧
      res.duration = (2000 - rangeDemoSession.startTime) / 1000 ∧
      getSession st' "s" = none ∧
      (∀ ts n, processAudioChunk st' "s" ts n =
        Except.error ("Session " ++ "s" ++ " not found")) ∧
      (∀ f ∈ st'.tempFiles,
        f ∈ rangeDemoState.tempFiles ∧
          f ∉ rangeDemoSession.chunks.map Chunk.filename) :=
  endSession_spec rangeDemoState "s" 2000 rangeDemoSession (by decide)

/-- Counterexample to C4 as stated: ending the failure-demo session while
a batch is still in flight succeeds immediately, but the merged-audio
artifact of the earlier failed batch survives — the session's temp
artifact set is not empty after `endSession`. -/
theorem endSession_leaves_merged_artifact :
    (getSession failDemoState "s").map (fun s => s.inFlight.length) = some 1 ∧
    (endSession failDemoState "s" 100).isOk = true ∧
    failDemoEnd.2.tempFiles = [mergedFilename "s" 50] := by
  decide

/-! Abstract scheduler arithmetic for the dispatch-counting claim. -/

/-- One firing step of the abstract loop. -/
theorem schLoop_step (fuel : ℕ) (s : Sch) (hq : 0 < s.q) (hw : s.w < 2) :
    schLoop 3 2 (fuel + 1) s =
      schLoop 3 2 fuel ⟨s.q - min 3 s.q, s.w + 1, s.flight + 1, s.dc + 1⟩ := by
  conv_lhs => unfold schLoop
  rw [if_pos ⟨hq, hw⟩]

/-- The abstract loop stops when the queue is empty or no slot is free. -/
theorem schLoop_stop (fuel : ℕ) (s : Sch) (h : ¬(0 < s.q ∧ s.w < 2)) :
    schLoop 3 2 fuel s = s := by
  cases fuel with
  | zero => rfl
  | succ n =>
      unfold schLoop
      rw [if_neg h]

/-- Draining with nothing in flight does nothing. -/
theorem schDrainN_flight_zero (fuel : ℕ) (s : Sch) (h : s.flight = 0) :
    schDrainN fuel s = s := by
  induction fuel with
  | zero => rfl
  | succ n ih =>
      unfold schDrainN schComplete
      rw [if_pos h]
      exact ih

/-- Evaluation of the abstract queue drain from a state with no busy
worker: up to two batches dispatch. -/
theorem schQueue_w0 (q d : ℕ) :
    schQueue 3 2 ⟨q, 0, 0, d⟩ =
      if 0 < q then
        (if 0 < q - min 3 q then
          ⟨q - min 3 q - min 3 (q - min 3 q), 2, 2, d + 2⟩
         else ⟨q - min 3 q, 1, 1, d + 1⟩)
      else ⟨q, 0, 0, d⟩ := by
  unfold schQueue
  dsimp only
  rw [if_neg (by omega : ¬ (2 : ℕ) ≤ 0)]
  by_cases hq : 0 < q
  · rw [if_pos hq, show q + 2 = q + 1 + 1 from rfl,
      schLoop_step (q + 1) _ hq (by dsimp only; omega)]
    by_cases hq2 : 0 < q - min 3 q
    · rw [if_pos hq2, schLoop_step q _ hq2 (by dsimp only; omega)]
      exact schLoop_stop _ _ (fun h => absurd h.2 (lt_irrefl 2))
    · rw [if_neg hq2]
      exact schLoop_stop _ _ (fun h => absurd h.1 hq2)
  · rw [if_neg hq]
    exact schLoop_stop _ _ (fun h => absurd h.1 hq)

/-- Evaluation of the abstract queue drain from a state with one busy
worker: at most one batch dispatches. -/
theorem schQueue_w1 (q d : ℕ) :
    schQueue 3 2 ⟨q, 1, 1, d⟩ =
      if 0 < q then ⟨q - min 3 q, 2, 2, d + 1⟩ else ⟨q, 1, 1, d⟩ := by
  unfold schQueue
  dsimp only
  rw [if_neg (by omega : ¬ (2 : ℕ) ≤ 1)]
  by_cases hq : 0 < q
  · rw [if_pos hq, show q + 2 = q + 1 + 1 from rfl,
      schLoop_step (q + 1) _ hq (by dsimp only; omega)]
    exact schLoop_stop _ _ (fun h => absurd h.2 (lt_irrefl 2))
  · rw [if_neg hq]
    exact schLoop_stop _ _ (fun h => absurd h.1 hq)

/-- Closed form of the abstract submission phase from the initial state:
no dispatch up to 2 chunks, one batch of three up to 5, two batches of
three (both worker slots busy) from 6 on. -/
theorem schSubmitN_closed (n : ℕ) :
    schSubmitN n ⟨0, 0, 0, 0⟩ =
      if n ≤ 2 then ⟨n, 0, 0, 0⟩
      else if n ≤ 5 then ⟨n - 3, 1, 1, 1⟩
      else ⟨n - 6, 2, 2, 2⟩ := by
  induction n with
  | zero => rfl
  | succ m ih =>
      unfold schSubmitN
      rw [ih]
      by_cases h1 : m ≤ 1
      · rw [if_pos (by omega : m ≤ 2), if_pos (by omega : m + 1 ≤ 2)]
        unfold schSubmit
        rw [if_neg (by omega : ¬ 3 ≤ m + 1)]
      · by_cases h2 : m = 2
        · subst h2
          decide
        · by_cases h3 : m ≤ 4
          · rw [if_neg (by omega), if_pos (by omega : m ≤ 5),
              if_neg (by omega), if_pos (by omega : m + 1 ≤ 5)]
            unfold schSubmit
            rw [if_neg (by omega : ¬ 3 ≤ m - 3 + 1)]
            have : m - 3 + 1 = m + 1 - 3 := by omega
            rw [this]
          · by_cases h4 : m = 5
            · subst h4
              decide
            · rw [if_neg (by omega), if_neg (by omega),
                if_neg (by omega), if_neg (by omega)]
              unfold schSubmit
              by_cases h5 : 3 ≤ m - 6 + 1
              · rw [if_pos h5]
                unfold schQueue
                dsimp only
                rw [if_pos (by omega : (2 : ℕ) ≤ 2)]
                have : m - 6 + 1 = m + 1 - 6 := by omega
                rw [this]
              · rw [if_neg h5]
                have : m - 6 + 1 = m + 1 - 6 := by omega
                rw [this]

/-- Dispatch count of the abstract drain phase: starting from a state
with as many busy workers as in-flight batches (at most two) and enough
completion steps, draining dispatches exactly one batch per three queued
chunks, rounded up. -/
theorem schDrain_count (fuel : ℕ) : ∀ s : Sch, s.w = s.flight → s.flight ≤ 2 →
    s.q + s.flight ≤ fuel →
    (schDrainN fuel s).dc = s.dc + (if s.flight = 0 then 0 else (s.q + 2) / 3) := by
  induction fuel with
  | zero =>
      intro s hw hf hfuel
      have hfl : s.flight = 0 := by omega
      rw [hfl]
      simp [schDrainN]
  | succ n ih =>
      intro s hw hf hfuel
      by_cases hfl0 : s.flight = 0
      · rw [schDrainN_flight_zero _ _ hfl0, if_pos hfl0]
        omega
      · show (schDrainN n (schComplete s)).dc = _
        have hcompl : schComplete s =
            if 0 < s.q then schQueue 3 2 ⟨s.q, s.w - 1, s.flight - 1, s.dc⟩
            else ⟨s.q, s.w - 1, s.flight - 1, s.dc⟩ := by
          unfold schComplete
          rw [if_neg hfl0]
        rw [hcompl, if_neg hfl0]
        by_cases hq : 0 < s.q
        · rw [if_pos hq]
          by_cases hf1 : s.flight = 1
          · -- one batch was in flight: both worker slots are free now
            have hw0 : s.w - 1 = 0 := by omega
            have hg0 : s.flight - 1 = 0 := by omega
            rw [hw0, hg0, schQueue_w0, if_pos hq]
            by_cases hq2 : 0 < s.q - min 3 s.q
            · rw [if_pos hq2]
              rw [ih ⟨s.q - min 3 s.q - min 3 (s.q - min 3 s.q), 2, 2, s.dc + 2⟩
                rfl (by dsimp only; omega) (by dsimp only; omega)]
              dsimp only
              rw [if_neg (by omega : ¬ (2 : ℕ) = 0)]
              omega
            · rw [if_neg hq2]
              rw [ih ⟨s.q - min 3 s.q, 1, 1, s.dc + 1⟩ rfl
                (by dsimp only; omega) (by dsimp only; omega)]
              dsimp only
              rw [if_neg (by omega : ¬ (1 : ℕ) = 0)]
              omega
          · -- two batches were in flight: one slot frees, one batch dispatches
            have hf2 : s.flight = 2 := by omega
            have hw1 : s.w - 1 = 1 := by omega
            have hg1 : s.flight - 1 = 1 := by omega
            rw [hw1, hg1, schQueue_w1, if_pos hq]
            rw [ih ⟨s.q - min 3 s.q, 2, 2, s.dc + 1⟩ rfl
              (by dsimp only; omega) (by dsimp only; omega)]
            dsimp only
            rw [if_neg (by omega : ¬ (2 : ℕ) = 0)]
            omega
        · rw [if_neg hq]
          rw [ih ⟨s.q, s.w - 1, s.flight - 1, s.dc⟩ (by dsimp only; omega)
            (by dsimp only; omega) (by dsimp only; omega)]
          dsimp only
          by_cases hg0 : s.flight - 1 = 0
          · rw [if_pos hg0]
            omega
          · rw [if_neg hg0]

/-! Simulation of the embedded scheduler by the abstract one. -/

/-- The queue loop changes neither the options nor `lastProcessedTime`. -/
theorem processQueueLoop_pres (fuel : ℕ) (s : Session) :
    (processQueueLoop fuel s).options = s.options ∧
    (processQueueLoop fuel s).lastProcessedTime = s.lastProcessedTime := by
  induction fuel generalizing s with
  | zero => exact ⟨rfl, rfl⟩
  | succ n ih =>
      unfold processQueueLoop
      split
      · dsimp only
        exact ih _
      · exact ⟨rfl, rfl⟩

/-- Wrapper fact: `processQueueSession` changes neither the options nor
`lastProcessedTime`. -/
theorem processQueueSession_pres (s : Session) :
    (processQueueSession s).options = s.options ∧
    (processQueueSession s).lastProcessedTime = s.lastProcessedTime := by
  unfold processQueueSession
  split
  · exact ⟨rfl, rfl⟩
  · exact processQueueLoop_pres _ _

/-- All-zero timestamps survive the queue loop: dispatched batches are
drawn from the queue. -/
theorem processQueueLoop_ts (fuel : ℕ) (s : Session)
    (hq : ∀ c ∈ s.processingQueue, c.timestamp = 0)
    (hf : ∀ b ∈ s.inFlight, ∀ c ∈ b, c.timestamp = 0) :
    (∀ c ∈ (processQueueLoop fuel s).processingQueue, c.timestamp = 0) ∧
    (∀ b ∈ (processQueueLoop fuel s).inFlight, ∀ c ∈ b, c.timestamp = 0) := by
  induction fuel generalizing s with
  | zero => exact ⟨hq, hf⟩
  | succ n ih =>
      unfold processQueueLoop
      split
      · dsimp only
        apply ih
        · intro c hc
          exact hq c (List.mem_of_mem_drop hc)
        · intro b hb c hc
          rcases List.mem_append.mp hb with hb1 | hb2
          · exact hf b hb1 c hc
          · rw [List.mem_singleton.mp hb2] at hc
            rcases List.mem_map.mp hc with ⟨c0, hc0, rfl⟩
            exact hq c0 (List.mem_of_mem_take hc0)
      · exact ⟨hq, hf⟩

/-- All-zero timestamps survive `processQueueSession`. -/
theorem processQueueSession_ts (s : Session)
    (hq : ∀ c ∈ s.processingQueue, c.timestamp = 0)
    (hf : ∀ b ∈ s.inFlight, ∀ c ∈ b, c.timestamp = 0) :
    (∀ c ∈ (processQueueSession s).processingQueue, c.timestamp = 0) ∧
    (∀ b ∈ (processQueueSession s).inFlight, ∀ c ∈ b, c.timestamp = 0) := by
  unfold processQueueSession
  split
  · exact ⟨hq, hf⟩
  · exact processQueueLoop_ts _ _ hq hf

/-- The abstract loop simulates the embedded one under projection. -/
theorem schLoop_sim (fuel : ℕ) (s : Session) :
    projSession (processQueueLoop fuel s) =
      schLoop s.options.batchSize s.options.maxWorkers fuel (projSession s) := by
  induction fuel generalizing s with
  | zero => rfl
  | succ n ih =>
      conv_rhs => unfold schLoop
      unfold processQueueLoop
      by_cases hc : 0 < s.processingQueue.length ∧ s.activeWorkers < s.options.maxWorkers
      · rw [if_pos hc,
          if_pos (show 0 < (projSession s).q ∧ (projSession s).w < s.options.maxWorkers
            from hc)]
        dsimp only
        rw [ih]
        simp only [projSession, List.length_drop, List.length_append,
          List.length_singleton, List.length_map, List.length_take]
      · rw [if_neg hc,
          if_neg (show ¬(0 < (projSession s).q ∧ (projSession s).w < s.options.maxWorkers)
            from hc)]

/-- The abstract queue drain simulates `processQueueSession`. -/
theorem schQueue_sim (s : Session) :
    projSession (processQueueSession s) =
      schQueue s.options.batchSize s.options.maxWorkers (projSession s) := by
  unfold processQueueSession schQueue
  by_cases hw : s.options.maxWorkers ≤ s.activeWorkers
  · rw [if_pos hw, if_pos (show s.options.maxWorkers ≤ (projSession s).w from hw)]
  · rw [if_neg hw, if_neg (show ¬ s.options.maxWorkers ≤ (projSession s).w from hw)]
    rw [schLoop_sim]
    rfl

/-- The running maximum of all-zero timestamps is zero. -/
theorem foldl_max_zero (l : List ℚ) (h : ∀ x ∈ l, x = 0) : l.foldl max 0 = 0 := by
  induction l with
  | nil => rfl
  | cons a t ih =>
      rw [List.foldl_cons, h a (List.mem_cons_self _ _), max_self]
      exact ih (fun x hx => h x (List.mem_cons_of_mem _ hx))

/-- Value of `maxTimestamp` on an all-zero batch: zero. -/
theorem maxTimestamp_zero (l : List Chunk) (h : ∀ c ∈ l, c.timestamp = 0) :
    maxTimestamp l = 0 := by
  cases l with
  | nil => rfl
  | cons c t =>
      show List.foldl max c.timestamp (t.map Chunk.timestamp) = 0
      rw [h c (List.mem_cons_self _ _)]
      apply foldl_max_zero
      intro x hx
      rcases List.mem_map.mp hx with ⟨c0, hc0, rfl⟩
      exact h c0 (List.mem_cons_of_mem _ hc0)

/-- A list whose index 0 reads `some a` is `a` consed on its tail. -/
theorem eq_cons_of_getElem0 (l : List (List Chunk)) (a : List Chunk)
    (h : l[0]? = some a) : l = a :: l.tail := by
  cases l with
  | nil => simp at h
  | cons x t =>
      have hx : x = a := by simpa using h
      subst hx
      rfl

/-- Equation for `processAudioChunk` on an existing session, characterized through
`submitSession` (a definitional refactoring of its body). -/
theorem processAudioChunk_eq (st : ServiceState) (sessionId : String)
    (timestamp now : ℚ) (session : Session)
    (h : getSession st sessionId = some session) :
    processAudioChunk st sessionId timestamp now =
      Except.ok
        ({ status := "queued"
           queueLength := (submitSession session sessionId timestamp now).processingQueue.length
           totalChunks := (submitSession session sessionId timestamp now).chunks.length },
         { st with
           activeSessions :=
             mapSet st.activeSessions sessionId (submitSession session sessionId timestamp now)
           tempFiles := st.tempFiles ++ [chunkFilename sessionId session.chunkIndex now] }) := by
  simp only [processAudioChunk, submitSession, h]

/-- Behaviour of `submitSession` under the scenario invariant: options and
`lastProcessedTime` persist and every stored timestamp stays zero. -/
theorem submitSession_inv (session : Session)
    (hqts : ∀ c ∈ session.processingQueue, c.timestamp = 0)
    (hfts : ∀ b ∈ session.inFlight, ∀ c ∈ b, c.timestamp = 0) :
    (submitSession session "s" 0 0).options = session.options ∧
    (submitSession session "s" 0 0).lastProcessedTime = session.lastProcessedTime ∧
    (∀ c ∈ (submitSession session "s" 0 0).processingQueue, c.timestamp = 0) ∧
    (∀ b ∈ (submitSession session "s" 0 0).inFlight, ∀ c ∈ b, c.timestamp = 0) := by
  unfold submitSession
  dsimp only
  have hq' : ∀ c ∈ session.processingQueue ++
      [({ filename := chunkFilename "s" session.chunkIndex 0, timestamp := 0,
          index := session.chunkIndex + 1 - 1, status := ChunkStatus.queued } : Chunk)],
      c.timestamp = 0 := by
    intro c hc
    rcases List.mem_append.mp hc with h1 | h2
    · exact hqts c h1
    · rw [List.mem_singleton.mp h2]
  split
  · refine ⟨?_, ?_, ?_, ?_⟩
    · rw [(processQueueSession_pres _).1]
    · rw [(processQueueSession_pres _).2]
    · refine (processQueueSession_ts _ ?_ ?_).1
      · exact hq'
      · exact hfts
    · refine (processQueueSession_ts _ ?_ ?_).2
      · exact hq'
      · exact hfts
  · exact ⟨rfl, rfl, hq', hfts⟩

/-- Projection of `submitSession` under the scenario invariant simulates `schSubmit`. -/
theorem submitSession_proj (session : Session)
    (hB : session.options.batchSize = 3) (hW : session.options.maxWorkers = 2)
    (hD : session.options.chunkDuration = 10) (hL : session.lastProcessedTime = 0) :
    projSession (submitSession session "s" 0 0) = schSubmit (projSession session) := by
  unfold submitSession schSubmit
  dsimp only
  rw [hB, hD, hL, List.length_append, List.length_singleton]
  have h20 : ¬ ((10 : ℚ) * 2 < 0 - 0) := by norm_num
  by_cases hc : 3 ≤ session.processingQueue.length + 1
  · rw [if_pos (Or.inl hc),
      if_pos (show 3 ≤ (projSession session).q + 1 from hc)]
    rw [schQueue_sim]
    simp only [projSession, List.length_append, List.length_singleton, hB, hW]
  · rw [if_neg (fun hor => hor.elim hc h20),
      if_neg (show ¬ 3 ≤ (projSession session).q + 1 from hc)]
    simp only [projSession, List.length_append, List.length_singleton]

/-- One submission of the scenario preserves the invariant and is
simulated by `schSubmit`. -/
theorem submit_sim (st : ServiceState) (h : SchedInv st) :
    ∃ r st', processAudioChunk st "s" 0 0 = Except.ok (r, st') ∧
      SchedInv st' ∧ projState st' = schSubmit (projState st) := by
  rcases h with ⟨session, hs, hB, hW, hD, hL, hqts, hfts⟩
  rw [processAudioChunk_eq st "s" 0 0 session hs]
  refine ⟨_, _, rfl, ?_, ?_⟩
  · refine ⟨submitSession session "s" 0 0, getSession_set _ _ _ _, ?_, ?_, ?_, ?_, ?_, ?_⟩
    · rw [(submitSession_inv session hqts hfts).1, hB]
    · rw [(submitSession_inv session hqts hfts).1, hW]
    · rw [(submitSession_inv session hqts hfts).1, hD]
    · rw [(submitSession_inv session hqts hfts).2.1, hL]
    · exact (submitSession_inv session hqts hfts).2.2.1
    · exact (submitSession_inv session hqts hfts).2.2.2
  · unfold projState
    rw [getSession_set, hs]
    exact submitSession_proj session hB hW hD hL

/-- One oldest-batch completion of the scenario (successful, empty
subtitle list, at time 0) preserves the invariant and is simulated by
`schComplete`. -/
theorem complete_sim (st : ServiceState) (h : SchedInv st) :
    SchedInv (completeBatch st "s" 0 (Except.ok []) 0) ∧
      projState (completeBatch st "s" 0 (Except.ok []) 0) =
        schComplete (projState st) := by
  rcases h with ⟨session, hs, hB, hW, hD, hL, hqts, hfts⟩
  rcases hflight : session.inFlight with _ | ⟨b, rest⟩
  · have hb0 : session.inFlight[0]? = none := by rw [hflight]; rfl
    have heq : completeBatch st "s" 0 (Except.ok []) 0 = st := by
      simp only [completeBatch, hs, hb0]
    rw [heq]
    refine ⟨⟨session, hs, hB, hW, hD, hL, hqts, hfts⟩, ?_⟩
    have hfl0 : (projState st).flight = 0 := by
      unfold projState
      rw [hs]
      show session.inFlight.length = 0
      rw [hflight]
      rfl
    unfold schComplete
    rw [if_pos hfl0]
  · have hb0 : session.inFlight[0]? = some b := by rw [hflight]; simp
    have hbts : ∀ c ∈ b, c.timestamp = 0 := fun c hc =>
      hfts b (by rw [hflight]; exact List.mem_cons_self _ _) c hc
    have hrest : ∀ b' ∈ rest, ∀ c ∈ b', c.timestamp = 0 := fun b' hb' =>
      hfts b' (by rw [hflight]; exact List.mem_cons_of_mem _ hb')
    have hmax0 : maxTimestamp (sortBatch b) = 0 :=
      maxTimestamp_zero _ (fun c hc =>
        hbts c ((List.perm_insertionSort _ _).mem_iff.mp hc))
    rw [completeBatch_ok_eq st "s" 0 [] 0 session b hs hb0]
    rw [batchFinally_eq _ _ _ _ (getSession_set _ _ _ _)]
    rw [hflight]
    dsimp only
    by_cases hq : 0 < session.processingQueue.length
    · rw [if_pos hq]
      rw [processQueue_eq _ _ _ (getSession_set _ _ _ _)]
      constructor
      · refine ⟨_, getSession_set _ _ _ _, ?_, ?_, ?_, ?_, ?_, ?_⟩
        · rw [(processQueueSession_pres _).1]
          exact hB
        · rw [(processQueueSession_pres _).1]
          exact hW
        · rw [(processQueueSession_pres _).1]
          exact hD
        · rw [(processQueueSession_pres _).2]
          exact hmax0
        · refine (processQueueSession_ts _ ?_ ?_).1
          · exact hqts
          · exact hrest
        · refine (processQueueSession_ts _ ?_ ?_).2
          · exact hqts
          · exact hrest
      · unfold projState
        rw [getSession_set, hs]
        dsimp only
        rw [schQueue_sim]
        unfold schComplete
        rw [if_neg (show ¬ ((projSession session).flight = 0) by
          show ¬ (session.inFlight.length = 0)
          rw [hflight]
          simp)]
        dsimp only
        rw [if_pos (show 0 < (projSession session).q from hq)]
        simp only [projSession, hB, hW]
        rw [hflight]
        simp
    · rw [if_neg hq]
      constructor
      · refine ⟨_, getSession_set _ _ _ _, hB, hW, hD, hmax0, hqts, hrest⟩
      · unfold projState
        rw [getSession_set, hs]
        dsimp only
        unfold schComplete
        rw [if_neg (show ¬ ((projSession session).flight = 0) by
          show ¬ (session.inFlight.length = 0)
          rw [hflight]
          simp)]
        dsimp only
        rw [if_neg (show ¬ 0 < (projSession session).q from hq)]
        simp only [projSession]
        rw [hflight]
        simp

/-- The submission phase of the scenario is simulated by the abstract
scheduler and keeps the invariant. -/
theorem submitN_sim (n : ℕ) :
    SchedInv (submitN schedState0 n) ∧
      projState (submitN schedState0 n) = schSubmitN n ⟨0, 0, 0, 0⟩ := by
  induction n with
  | zero =>
      refine ⟨⟨schedSession0, by decide, by decide, by decide, by decide, by decide,
        by decide, by decide⟩, by decide⟩
  | succ m ih =>
      rcases submit_sim _ ih.1 with ⟨r, st', heq, hinv', hproj'⟩
      unfold submitN
      rw [heq]
      refine ⟨hinv', ?_⟩
      show projState st' = schSubmit (schSubmitN m ⟨0, 0, 0, 0⟩)
      rw [hproj', ih.2]

/-- The drain phase of the scenario is simulated by the abstract
scheduler and keeps the invariant. -/
theorem drainN_sim (fuel : ℕ) : ∀ st : ServiceState, SchedInv st →
    SchedInv (drainN st fuel) ∧
      projState (drainN st fuel) = schDrainN fuel (projState st) := by
  induction fuel with
  | zero => exact fun st h => ⟨h, rfl⟩
  | succ n ih =>
      intro st h
      have hc := complete_sim st h
      have := ih _ hc.1
      refine ⟨this.1, ?_⟩
      show projState (drainN (completeBatch st "s" 0 (Except.ok []) 0) n) =
        schDrainN n (schComplete (projState st))
      rw [this.2, hc.2]

/-- Claim C2 (amended): in the dispatch-counting scenario — default
options (batchSize 3, maxWorkers 2), N chunks submitted back to back with
the time trigger never firing, then all batches completed — the session
dispatches exactly ⌈N/3⌉ batches, for every N ≥ 3.  (For N = 1, 2 no
dispatch ever happens: the partial batch stalls, see the
counterexample.) -/
theorem dispatch_count_spec (n : ℕ) (h : 3 ≤ n) :
    sessionDispatchCount (runPipeline n) "s" = (n + 2) / 3 := by
  have hdc : sessionDispatchCount (runPipeline n) "s" = (projState (runPipeline n)).dc := by
    unfold sessionDispatchCount projState projSession
    cases getSession (runPipeline n) "s" <;> rfl
  rw [hdc]
  have hsub := submitN_sim n
  have hdr := drainN_sim n _ hsub.1
  show (projState (drainN (submitN schedState0 n) n)).dc = (n + 2) / 3
  rw [hdr.2, hsub.2, schSubmitN_closed]
  by_cases h5 : n ≤ 5
  · rw [if_neg (by omega), if_pos h5]
    rw [schDrain_count n ⟨n - 3, 1, 1, 1⟩ rfl (by dsimp only; omega) (by dsimp only; omega)]
    dsimp only
    rw [if_neg (by omega : ¬ (1 : ℕ) = 0)]
    omega
  · rw [if_neg (by omega), if_neg h5]
    rw [schDrain_count n ⟨n - 6, 2, 2, 2⟩ rfl (by dsimp only; omega) (by dsimp only; omega)]
    dsimp only
    rw [if_neg (by omega : ¬ (2 : ℕ) = 0)]
    omega

/-- Witness for the amended C2 at N = 7: three dispatches. -/
theorem dispatch_count_spec_witness :
    3 ≤ 7 ∧ sessionDispatchCount (runPipeline 7) "s" = (7 + 2) / 3 :=
  ⟨by omega, dispatch_count_spec 7 (by omega)⟩

/-- Counterexample to C2 as stated: for N = 1 the single chunk is never
dispatched (the size trigger needs three chunks and the time trigger
never fires again), so the dispatch count is 0, not ⌈1/3⌉ = 1. -/
theorem dispatch_count_counterexample :
    sessionDispatchCount (runPipeline 1) "s" = 0 ∧
      sessionDispatchCount (runPipeline 1) "s" ≠ (1 + 2) / 3 := by
  constructor
  · decide
  · decide

end Theorems

end MemoryStream
